import Mathlib

/-!
Shallow embedding of `rustfmt-core/rustfmt-lib/src/emitter.rs`: the format-report
emission layer of rustfmt.  Pure functions mirror the Rust functions; the
filesystem is modelled as a partial map from paths to file contents; `panic!`
is modelled as an explicit `panicked` outcome distinct from returned errors;
the output sink is not observable from this file's code (the concrete emitter
modules are external), so the orchestrator is instrumented with the trace of
strategy calls it makes and the list of per-file `has_diff` results.
-/

namespace RustfmtEmitter

/-- `config::FileName` (external to emitter.rs, used by it): a real path or stdin.
Paths are modelled as strings. -/
inductive FileName
  | Real (path : String)
  | Stdin
deriving DecidableEq, Repr

/-- `NewlineStyle` (external config enum): `Auto` is the "no override" sentinel;
the remaining variants are explicit user overrides.  emitter.rs only ever
compares against `Auto`. -/
inductive NewlineStyle
  | Auto
  | Windows
  | Unix
  | Native
deriving DecidableEq, Repr

/-- `FormatResult` (produced upstream; emitter.rs reads it through the accessors
`newline_style()`, `original_text()` and `formatted_text()`).  Modelled from the
spec's FormatOutcome: formatted text, optional cached original snippet, and the
newline style actually applied. -/
structure FormatResult where
  newline_style : NewlineStyle
  original_text : Option String
  formatted_text : String
deriving DecidableEq, Repr

/-- `EmitterError` (emitter.rs lines 37-45): `IoError` wraps `io::Error`,
`JsonError` wraps `serde_json::Error`, `InvalidInputForFiles` is
"invalid input for EmitMode::Files".  Payloads of the wrapped causes are
not observable here and are dropped. -/
inductive EmitterError
  | IoError
  | JsonError
  | InvalidInputForFiles
deriving DecidableEq, Repr

/-- Outcome of a step of Rust code that can return a value, return an error via
`?`, or `panic!` (process abort).  A panic is not a returned error. -/
inductive StepOutcome (α : Type)
  | ok (a : α)
  | error (e : EmitterError)
  | panicked
deriving DecidableEq, Repr

/-- `ensure_real_path` (emitter.rs lines 186-191): returns the path of a
`FileName::Real`, and panics (`none` here) on any other variant. -/
def ensure_real_path : FileName → Option String
  | FileName.Real path => some path
  | _ => none

/-- `fs::read_to_string(ensure_real_path(filename))` as it appears on lines 204
and 210: panics on a non-real filename, otherwise reads the file, an absent or
unreadable file being an `io::Error` converted into `EmitterError::IoError`. -/
def read_original_from_disk (fs : String → Option String) (filename : FileName) :
    StepOutcome String :=
  match ensure_real_path filename with
  | none => StepOutcome.panicked
  | some path =>
    match fs path with
    | some text => StepOutcome.ok text
    | none => StepOutcome.error EmitterError.IoError

/-- The baseline-text resolution of `write_file` (emitter.rs lines 202-213):
if the newline style is overridden and the file is not stdin, read from disk;
otherwise use the cached original snippet if present, else the parse-session
source-map lookup if available, else read from disk.  `parse_sess` models the
`Option<&ParseSess>` argument as an optional lookup function
(`get_original_snippet`). -/
def resolve_original_text (fs : String → Option String)
    (parse_sess : Option (FileName → Option String))
    (filename : FileName) (formatted_result : FormatResult) : StepOutcome String :=
  if formatted_result.newline_style ≠ NewlineStyle.Auto ∧ filename ≠ FileName.Stdin then
    read_original_from_disk fs filename
  else
    match formatted_result.original_text with
    | some original_snippet => StepOutcome.ok original_snippet
    | none =>
      match parse_sess.bind (fun sess => sess filename) with
      | some ori => StepOutcome.ok ori
      | none => read_original_from_disk fs filename

/-- `EmitterResult` (emitter.rs lines 32-35). -/
structure EmitterResult where
  has_diff : Bool
deriving DecidableEq, Repr

/-- `FormattedFile` (emitter.rs lines 26-30): the per-file view handed to a
strategy. -/
structure FormattedFile where
  filename : FileName
  original_text : String
  formatted_text : String
deriving DecidableEq, Repr

/-- The `Emitter` trait (emitter.rs lines 47-61) seen as a behaviour with an
explicit instance state `σ`: `emit_formatted_file` takes `&mut self` and may
update the state; `emit_header` and `emit_footer` take `&self` and cannot.
`init` is the freshly constructed instance (`create_emitter`'s boxed value).
What the strategy writes to the sink is not visible in emitter.rs, so the sink
is not modelled; the observable effects are the calls themselves, recorded by
the orchestrator below. -/
structure EmitterBehavior (σ : Type) where
  init : σ
  emit_formatted_file : σ → FormattedFile → Except EmitterError (EmitterResult × σ)
  emit_header : σ → Except EmitterError Unit
  emit_footer : σ → Except EmitterError Unit

/-- `write_file` (emitter.rs lines 176-222): resolve the original text, build the
`FormattedFile` view, and call the strategy's `emit_formatted_file`.  The second
component records whether `emit_formatted_file` was actually invoked (it is not
when resolution fails or panics first). -/
def write_file {σ : Type} (fs : String → Option String)
    (parse_sess : Option (FileName → Option String))
    (filename : FileName) (formatted_result : FormatResult)
    (emitter : EmitterBehavior σ) (s : σ) :
    StepOutcome (EmitterResult × σ) × Bool :=
  match resolve_original_text fs parse_sess filename formatted_result with
  | StepOutcome.panicked => (StepOutcome.panicked, false)
  | StepOutcome.error e => (StepOutcome.error e, false)
  | StepOutcome.ok original_text =>
    match emitter.emit_formatted_file s
        ⟨filename, original_text, formatted_result.formatted_text⟩ with
    | Except.error e => (StepOutcome.error e, true)
    | Except.ok r => (StepOutcome.ok r, true)

/-- One observable strategy call made by the orchestrator: construction of the
strategy, `emit_header`, `emit_formatted_file` for a given file, `emit_footer`. -/
inductive CallEvent
  | create
  | header
  | file (filename : FileName)
  | footer
deriving DecidableEq, Repr

/-- The `for` loop of `emit_format_report` (emitter.rs lines 168-170):
`has_diff |= write_file(None, filename, &format_result, out, &mut *emitter)?.has_diff`.
Note the literal `None` parse session at the call site.  The report is the
ordered list of `(filename, format_result)` pairs; `FormatReport`'s iterator is
external to emitter.rs and, per the spec, yields insertion order.  Returns the
loop outcome (final accumulator and strategy state), the trace of
`emit_formatted_file` calls made, and the list of per-file `has_diff` results
returned by the strategy. -/
def run_files {σ : Type} (fs : String → Option String) (emitter : EmitterBehavior σ) :
    List (FileName × FormatResult) → σ → Bool →
    StepOutcome (Bool × σ) × List CallEvent × List Bool
  | [], s, has_diff => (StepOutcome.ok (has_diff, s), [], [])
  | (filename, formatted_result) :: rest, s, has_diff =>
    match write_file fs none filename formatted_result emitter s with
    | (StepOutcome.ok (r, s'), _) =>
      let step := run_files fs emitter rest s' (has_diff || r.has_diff)
      (step.1, CallEvent.file filename :: step.2.1, r.has_diff :: step.2.2)
    | (StepOutcome.error e, called) =>
      (StepOutcome.error e, if called then [CallEvent.file filename] else [], [])
    | (StepOutcome.panicked, called) =>
      (StepOutcome.panicked, if called then [CallEvent.file filename] else [], [])

/-- `emit_format_report` (emitter.rs lines 156-174): create the strategy once,
emit the header, process every file in report order accumulating `has_diff`
with `|=`, emit the footer, and return the accumulator.  Every `?` propagates
the first error immediately.  Instrumented with the trace of strategy calls and
the per-file `has_diff` list; the successful outcome also carries the final
strategy state so that recording strategies are observable. -/
def emit_format_report {σ : Type} (fs : String → Option String)
    (emitter : EmitterBehavior σ) (format_report : List (FileName × FormatResult)) :
    StepOutcome (Bool × σ) × List CallEvent × List Bool :=
  let s := emitter.init
  match emitter.emit_header s with
  | Except.error e => (StepOutcome.error e, [CallEvent.create, CallEvent.header], [])
  | Except.ok _ =>
    match run_files fs emitter format_report s false with
    | (StepOutcome.ok (has_diff, s'), tr, ds) =>
      match emitter.emit_footer s' with
      | Except.error e =>
        (StepOutcome.error e,
          CallEvent.create :: CallEvent.header :: (tr ++ [CallEvent.footer]), ds)
      | Except.ok _ =>
        (StepOutcome.ok (has_diff, s'),
          CallEvent.create :: CallEvent.header :: (tr ++ [CallEvent.footer]), ds)
    | (StepOutcome.error e, tr, ds) =>
      (StepOutcome.error e, CallEvent.create :: CallEvent.header :: tr, ds)
    | (StepOutcome.panicked, tr, ds) =>
      (StepOutcome.panicked, CallEvent.create :: CallEvent.header :: tr, ds)

/-- `EmitMode` (emitter.rs lines 65-83). -/
inductive EmitMode
  | Files
  | Stdout
  | Checkstyle
  | Json
  | ModifiedLines
  | Diff
deriving DecidableEq, Repr

/-- `Color` (emitter.rs lines 86-94). -/
inductive Color
  | Always
  | Never
  | Auto
deriving DecidableEq, Repr

/-- `Verbosity` (emitter.rs lines 107-115). -/
inductive Verbosity
  | Normal
  | Verbose
  | Quiet
deriving DecidableEq, Repr

/-- `EmitterConfig` (emitter.rs lines 137-143). -/
structure EmitterConfig where
  emit_mode : EmitMode
  color : Color
  verbosity : Verbosity
  print_filename : Bool
deriving DecidableEq, Repr

/-- `impl FromStr for EmitMode` (emitter.rs lines 123-135): the sequential
string match, with the error message `format!("unknown emit mode `{}`", s)`. -/
def EmitMode.from_str (s : String) : Except String EmitMode :=
  if s = "files" then Except.ok EmitMode.Files
  else if s = "stdout" then Except.ok EmitMode.Stdout
  else if s = "checkstyle" then Except.ok EmitMode.Checkstyle
  else if s = "json" then Except.ok EmitMode.Json
  else Except.error ("unknown emit mode `" ++ s ++ "`")

/-- The `Box<dyn Emitter>` values produced by `create_emitter` (emitter.rs lines
224-233), as data: which concrete strategy type was constructed and with which
arguments.  `FilesEmitter::new`, `StdoutEmitter::new` and `DiffEmitter::new`
receive the config; `JsonEmitter::default()`, `ModifiedLinesEmitter::default()`
and `CheckstyleEmitter::default()` are constructed without it. -/
inductive ConstructedEmitter
  | filesEmitter (emitter_config : EmitterConfig)
  | stdoutEmitter (emitter_config : EmitterConfig)
  | jsonEmitter
  | modifiedLinesEmitter
  | checkstyleEmitter
  | diffEmitter (emitter_config : EmitterConfig)
deriving DecidableEq, Repr

/-- `create_emitter` (emitter.rs lines 224-233). -/
def create_emitter (emitter_config : EmitterConfig) : ConstructedEmitter :=
  match emitter_config.emit_mode with
  | EmitMode.Files => ConstructedEmitter.filesEmitter emitter_config
  | EmitMode.Stdout => ConstructedEmitter.stdoutEmitter emitter_config
  | EmitMode.Json => ConstructedEmitter.jsonEmitter
  | EmitMode.ModifiedLines => ConstructedEmitter.modifiedLinesEmitter
  | EmitMode.Checkstyle => ConstructedEmitter.checkstyleEmitter
  | EmitMode.Diff => ConstructedEmitter.diffEmitter emitter_config

/-- The concrete strategy type `create_emitter` chose, read back off the
constructed value. -/
def ConstructedEmitter.mode : ConstructedEmitter → EmitMode
  | ConstructedEmitter.filesEmitter _ => EmitMode.Files
  | ConstructedEmitter.stdoutEmitter _ => EmitMode.Stdout
  | ConstructedEmitter.jsonEmitter => EmitMode.Json
  | ConstructedEmitter.modifiedLinesEmitter => EmitMode.ModifiedLines
  | ConstructedEmitter.checkstyleEmitter => EmitMode.Checkstyle
  | ConstructedEmitter.diffEmitter _ => EmitMode.Diff

/-- A disk write performed by a strategy. -/
inductive WriteEvent
  | write (path : String) (text : String)
deriving DecidableEq, Repr

/-- Modelled from the spec: the disk-writing Files strategy lives in
`emitter/files.rs`, which is not part of the supplied source.  Per the spec, a
disk-writing strategy asked to persist a non-real identity fails with the
designated invalid-target error (`EmitterError::InvalidInputForFiles`) and
performs no write; for a real path it overwrites the file exactly when the
formatted text differs from the original.  The returned write list is the list
of disk writes performed. -/
def files_emit_formatted_file (formatted_file : FormattedFile) :
    Except EmitterError (EmitterResult × List WriteEvent) :=
  match formatted_file.filename with
  | FileName.Stdin => Except.error EmitterError.InvalidInputForFiles
  | FileName.Real path =>
    if formatted_file.original_text = formatted_file.formatted_text then
      Except.ok (⟨false⟩, [])
    else
      Except.ok (⟨true⟩, [WriteEvent.write path formatted_file.formatted_text])

/-- A recording strategy used to instantiate the orchestrator theorems: its
state is the list of `FormattedFile` views it has received, and it reports a
diff exactly when the original and formatted texts differ. -/
def recordingEmitter : EmitterBehavior (List FormattedFile) where
  init := []
  emit_formatted_file := fun s v =>
    Except.ok (⟨v.original_text != v.formatted_text⟩, s ++ [v])
  emit_header := fun _ => Except.ok ()
  emit_footer := fun _ => Except.ok ()

/-- C1: `write_file`'s baseline-text resolution evaluates its candidate sources
in this exact order, short-circuiting at the first success: (1) non-Auto
newline style and non-Stdin identity reads the on-disk bytes, bypassing every
cache (the result is the disk read whatever the cached snippet and parse
session hold); (2) else a cached original-text snippet is used whatever the
filesystem and parse session hold; (3) else an available source-map lookup
returning a snippet is used whatever the filesystem holds; (4) else the disk
is read.  In particular, a real-path identity with a non-Auto override whose
cached snippet differs from the on-disk bytes resolves to the on-disk bytes,
not the cached snippet. -/
theorem c1_resolution_priority_chain (fs : String → Option String)
    (parse_sess : Option (FileName → Option String))
    (filename : FileName) (formatted_result : FormatResult) :
    (formatted_result.newline_style ≠ NewlineStyle.Auto → filename ≠ FileName.Stdin →
      resolve_original_text fs parse_sess filename formatted_result =
        read_original_from_disk fs filename)
    ∧ ((formatted_result.newline_style = NewlineStyle.Auto ∨ filename = FileName.Stdin) →
      ∀ snippet, formatted_result.original_text = some snippet →
        resolve_original_text fs parse_sess filename formatted_result =
          StepOutcome.ok snippet)
    ∧ ((formatted_result.newline_style = NewlineStyle.Auto ∨ filename = FileName.Stdin) →
      formatted_result.original_text = none →
      ∀ lookup t, parse_sess = some lookup → lookup filename = some t →
        resolve_original_text fs parse_sess filename formatted_result =
          StepOutcome.ok t)
    ∧ ((formatted_result.newline_style = NewlineStyle.Auto ∨ filename = FileName.Stdin) →
      formatted_result.original_text = none →
      parse_sess.bind (fun sess => sess filename) = none →
      resolve_original_text fs parse_sess filename formatted_result =
        read_original_from_disk fs filename)
    ∧ (∀ path cached disk, filename = FileName.Real path →
      formatted_result.newline_style ≠ NewlineStyle.Auto →
      formatted_result.original_text = some cached →
      fs path = some disk →
      resolve_original_text fs parse_sess filename formatted_result =
        StepOutcome.ok disk
      ∧ (cached ≠ disk →
        resolve_original_text fs parse_sess filename formatted_result ≠
          StepOutcome.ok cached)) := by
  have hneg : (formatted_result.newline_style = NewlineStyle.Auto ∨
      filename = FileName.Stdin) →
      ¬(formatted_result.newline_style ≠ NewlineStyle.Auto ∧
        filename ≠ FileName.Stdin) := by
    rintro (h | h) ⟨h1, h2⟩
    · exact h1 h
    · exact h2 h
  refine ⟨?_, ?_, ?_, ?_, ?_⟩
  · intro hn hs
    simp only [resolve_original_text]
    rw [if_pos ⟨hn, hs⟩]
  · intro hguard snippet hsnip
    simp only [resolve_original_text]
    rw [if_neg (hneg hguard), hsnip]
  · intro hguard hnone lookup t hsess hlook
    simp only [resolve_original_text]
    rw [if_neg (hneg hguard), hnone, hsess]
    simp only [Option.some_bind, hlook]
  · intro hguard hnone hbind
    simp only [resolve_original_text]
    rw [if_neg (hneg hguard), hnone, hbind]
  · intro path cached disk hreal hn _hcached hdisk
    have hs : filename ≠ FileName.Stdin := by
      rw [hreal]; intro h; cases h
    have hres : resolve_original_text fs parse_sess filename formatted_result =
        StepOutcome.ok disk := by
      simp only [resolve_original_text]
      rw [if_pos ⟨hn, hs⟩, hreal]
      simp only [read_original_from_disk, ensure_real_path, hdisk]
    exact ⟨hres, fun hne hcontra => by
      rw [hres] at hcontra
      cases hcontra
      exact hne rfl⟩

/-- Witness for C1: with `lib.rs` holding `"a\r\n"` on disk, a cached snippet
`"a\n"` and a Windows newline override, resolution yields the on-disk bytes. -/
theorem c1_resolution_priority_chain_witness :
    resolve_original_text (fun p => if p = "lib.rs" then some "a\r\n" else none) none
      (FileName.Real "lib.rs")
      ⟨NewlineStyle.Windows, some "a\n", "fmt"⟩ = StepOutcome.ok "a\r\n" :=
  ((c1_resolution_priority_chain (fun p => if p = "lib.rs" then some "a\r\n" else none)
    none (FileName.Real "lib.rs")
    ⟨NewlineStyle.Windows, some "a\n", "fmt"⟩).2.2.2.2 "lib.rs" "a\n" "a\r\n"
    rfl (by decide) rfl (by decide)).1

/-- C2: a Stdin file whose outcome carries a cached snippet resolves to that
snippet, for every newline style (Auto or not); the result is independent of
the filesystem (no filesystem access can influence it) and is neither the
panic outcome nor an I/O error, so the disk-read branches are unreachable
under this precondition. -/
theorem c2_stdin_cached_snippet_no_disk (fs fs2 : String → Option String)
    (parse_sess : Option (FileName → Option String))
    (formatted_result : FormatResult) (snippet : String)
    (hcache : formatted_result.original_text = some snippet) :
    resolve_original_text fs parse_sess FileName.Stdin formatted_result =
      StepOutcome.ok snippet
    ∧ resolve_original_text fs parse_sess FileName.Stdin formatted_result =
      resolve_original_text fs2 parse_sess FileName.Stdin formatted_result
    ∧ resolve_original_text fs parse_sess FileName.Stdin formatted_result ≠
      StepOutcome.panicked
    ∧ resolve_original_text fs parse_sess FileName.Stdin formatted_result ≠
      StepOutcome.error EmitterError.IoError := by
  have key : ∀ g : String → Option String,
      resolve_original_text g parse_sess FileName.Stdin formatted_result =
        StepOutcome.ok snippet := by
    intro g
    simp only [resolve_original_text]
    rw [if_neg (fun hc => hc.2 rfl), hcache]
  refine ⟨key fs, (key fs).trans (key fs2).symm, ?_, ?_⟩
  · rw [key fs]; intro h; cases h
  · rw [key fs]; intro h; cases h

/-- Witness for C2: stdin input with cached snippet `"src"` and a Unix newline
override resolves to `"src"` on an empty filesystem, equals the resolution on
a non-empty one, and is neither a panic nor an I/O error. -/
theorem c2_stdin_cached_snippet_no_disk_witness :
    resolve_original_text (fun _ => none) none FileName.Stdin
      ⟨NewlineStyle.Unix, some "src", "fmt"⟩ = StepOutcome.ok "src"
    ∧ resolve_original_text (fun _ => none) none FileName.Stdin
      ⟨NewlineStyle.Unix, some "src", "fmt"⟩ =
      resolve_original_text (fun _ => some "other") none FileName.Stdin
        ⟨NewlineStyle.Unix, some "src", "fmt"⟩
    ∧ resolve_original_text (fun _ => none) none FileName.Stdin
      ⟨NewlineStyle.Unix, some "src", "fmt"⟩ ≠ StepOutcome.panicked
    ∧ resolve_original_text (fun _ => none) none FileName.Stdin
      ⟨NewlineStyle.Unix, some "src", "fmt"⟩ ≠
      StepOutcome.error EmitterError.IoError :=
  c2_stdin_cached_snippet_no_disk (fun _ => none) (fun _ => some "other") none
    ⟨NewlineStyle.Unix, some "src", "fmt"⟩ "src" rfl

/-- Counterexample for C3: a Stdin identity that reaches the forced disk read
(no cached snippet, no parse session) makes `ensure_real_path` panic — the
outcome is a process abort, not a returned `InvalidInputForFiles`
(invalid-target) error, contradicting the claim that such failures surface as
a reported, catchable error rather than aborting the process. -/
theorem c3_invalid_target_counterexample :
    resolve_original_text (fun _ => none) none FileName.Stdin
      ⟨NewlineStyle.Auto, none, ""⟩ = StepOutcome.panicked
    ∧ (StepOutcome.panicked : StepOutcome String) ≠
      StepOutcome.error EmitterError.InvalidInputForFiles
    ∧ (StepOutcome.panicked : StepOutcome String) ≠
      StepOutcome.error EmitterError.IoError := by
  refine ⟨by decide, ?_, ?_⟩ <;> (intro h; cases h)

/-- C3 (amended): the disk-writing Files strategy given a Stdin identity fails
with the catchable `InvalidInputForFiles` error and performs no write
(spec-modelled, its module being outside the supplied source); but a non-real
identity reaching a forced disk read inside `write_file` panics — the process
aborts rather than receiving a catchable error. -/
theorem c3_invalid_target_behaviour (formatted_file : FormattedFile)
    (hstdin : formatted_file.filename = FileName.Stdin)
    (fs : String → Option String)
    (parse_sess : Option (FileName → Option String))
    (formatted_result : FormatResult)
    (hnocache : formatted_result.original_text = none)
    (hnosess : parse_sess.bind (fun sess => sess FileName.Stdin) = none) :
    files_emit_formatted_file formatted_file =
      Except.error EmitterError.InvalidInputForFiles
    ∧ resolve_original_text fs parse_sess FileName.Stdin formatted_result =
      StepOutcome.panicked := by
  constructor
  · simp only [files_emit_formatted_file, hstdin]
  · simp only [resolve_original_text]
    rw [if_neg (fun hc => hc.2 rfl), hnocache, hnosess]
    rfl

/-- Witness for C3 (amended): concrete Stdin view and outcome. -/
theorem c3_invalid_target_behaviour_witness :
    files_emit_formatted_file ⟨FileName.Stdin, "a", "b"⟩ =
      Except.error EmitterError.InvalidInputForFiles
    ∧ resolve_original_text (fun _ => none) none FileName.Stdin
      ⟨NewlineStyle.Unix, none, "fmt"⟩ = StepOutcome.panicked :=
  c3_invalid_target_behaviour ⟨FileName.Stdin, "a", "b"⟩ rfl (fun _ => none) none
    ⟨NewlineStyle.Unix, none, "fmt"⟩ rfl rfl

theorem run_files_ok_spec {σ : Type} (fs : String → Option String)
    (emitter : EmitterBehavior σ) :
    ∀ (files : List (FileName × FormatResult)) (s : σ) (acc b : Bool) (s' : σ)
      (tr : List CallEvent) (ds : List Bool),
      run_files fs emitter files s acc = (StepOutcome.ok (b, s'), tr, ds) →
      b = (acc || ds.any id) ∧ ds.length = files.length ∧
        tr = files.map (fun p => CallEvent.file p.1) := by
  intro files
  induction files with
  | nil =>
    intro s acc b s' tr ds h
    simp only [run_files, Prod.mk.injEq, StepOutcome.ok.injEq] at h
    obtain ⟨⟨hb, _⟩, htr, hds⟩ := h
    subst hb; subst htr; subst hds
    simp
  | cons hd rest ih =>
    obtain ⟨filename, formatted_result⟩ := hd
    intro s acc b s' tr ds h
    simp only [run_files] at h
    rcases hw : write_file fs none filename formatted_result emitter s with ⟨out, called⟩
    rw [hw] at h
    cases out with
    | ok rs =>
      obtain ⟨r, s1⟩ := rs
      simp only [Prod.mk.injEq] at h
      obtain ⟨ho, htr, hds⟩ := h
      rcases hstep : run_files fs emitter rest s1 (acc || r.has_diff) with ⟨out1, tr1, ds1⟩
      rw [hstep] at ho htr hds
      simp only at ho htr hds
      subst htr; subst hds
      obtain ⟨hb, hlen, htr1⟩ := ih s1 (acc || r.has_diff) b s' tr1 ds1 (by rw [hstep, ho])
      refine ⟨?_, by simp [hlen], by simp [htr1]⟩
      rw [hb]
      simp [Bool.or_assoc]
    | error e => simp only [Prod.mk.injEq] at h; cases h.1
    | panicked => simp only [Prod.mk.injEq] at h; cases h.1

theorem run_files_append {σ : Type} (fs : String → Option String)
    (emitter : EmitterBehavior σ) :
    ∀ (files1 files2 : List (FileName × FormatResult)) (s : σ) (acc b : Bool)
      (s' : σ) (tr : List CallEvent) (ds : List Bool),
      run_files fs emitter files1 s acc = (StepOutcome.ok (b, s'), tr, ds) →
      run_files fs emitter (files1 ++ files2) s acc =
        ((run_files fs emitter files2 s' b).1,
          tr ++ (run_files fs emitter files2 s' b).2.1,
          ds ++ (run_files fs emitter files2 s' b).2.2) := by
  intro files1
  induction files1 with
  | nil =>
    intro files2 s acc b s' tr ds h
    simp only [run_files, Prod.mk.injEq, StepOutcome.ok.injEq] at h
    obtain ⟨⟨hb, hs⟩, htr, hds⟩ := h
    subst hb; subst hs; subst htr; subst hds
    simp
  | cons hd rest ih =>
    obtain ⟨filename, formatted_result⟩ := hd
    intro files2 s acc b s' tr ds h
    simp only [run_files] at h ⊢
    rcases hw : write_file fs none filename formatted_result emitter s with ⟨out, called⟩
    rw [hw] at h
    cases out with
    | ok rs =>
      obtain ⟨r, s1⟩ := rs
      simp only [Prod.mk.injEq] at h
      obtain ⟨ho, htr, hds⟩ := h
      rcases hstep : run_files fs emitter rest s1 (acc || r.has_diff) with ⟨out1, tr1, ds1⟩
      rw [hstep] at ho htr hds
      simp only at ho htr hds
      subst htr; subst hds
      have := ih files2 s1 (acc || r.has_diff) b s' tr1 ds1 (by rw [hstep, ho])
      dsimp only
      simp only [List.append_eq]
      rw [this]
      simp
    | error e => simp only [Prod.mk.injEq] at h; cases h.1
    | panicked => simp only [Prod.mk.injEq] at h; cases h.1

theorem emit_format_report_ok_inv {σ : Type} (fs : String → Option String)
    (emitter : EmitterBehavior σ) (format_report : List (FileName × FormatResult))
    (b : Bool) (s' : σ) (tr : List CallEvent) (ds : List Bool)
    (h : emit_format_report fs emitter format_report = (StepOutcome.ok (b, s'), tr, ds)) :
    emitter.emit_header emitter.init = Except.ok () ∧
    ∃ tr2, run_files fs emitter format_report emitter.init false =
        (StepOutcome.ok (b, s'), tr2, ds) ∧
      emitter.emit_footer s' = Except.ok () ∧
      tr = CallEvent.create :: CallEvent.header :: (tr2 ++ [CallEvent.footer]) := by
  simp only [emit_format_report] at h
  cases hh : emitter.emit_header emitter.init with
  | error e => rw [hh] at h; simp only [Prod.mk.injEq] at h; cases h.1
  | ok u =>
    cases u
    rw [hh] at h
    rcases hr : run_files fs emitter format_report emitter.init false with ⟨out, tr2, ds2⟩
    rw [hr] at h
    cases out with
    | ok q =>
      obtain ⟨hd2, s2⟩ := q
      dsimp only at h
      cases hf : emitter.emit_footer s2 with
      | error e =>
        rw [hf] at h
        simp only [Prod.mk.injEq] at h
        cases h.1
      | ok u2 =>
        cases u2
        rw [hf] at h
        simp only [Prod.mk.injEq, StepOutcome.ok.injEq] at h
        obtain ⟨⟨hb, hs⟩, htr, hds⟩ := h
        subst hb; subst hs; subst htr; subst hds
        exact ⟨rfl, tr2, rfl, hf, rfl⟩
    | error e => simp only [Prod.mk.injEq] at h; cases h.1
    | panicked => simp only [Prod.mk.injEq] at h; cases h.1

/-- C4: the first error encountered aborts `emit_format_report` immediately and
propagates to the caller: a header error stops before any file; an error while
processing file k (after a successful run over the earlier files) returns that
error with no `emit_formatted_file` call for any later file and no footer
call, while the trace of the earlier files' emissions is preserved unchanged;
a footer error after a successful body also propagates. -/
theorem c4_first_error_aborts {σ : Type} (fs : String → Option String)
    (emitter : EmitterBehavior σ)
    (format_report front rest : List (FileName × FormatResult))
    (filename : FileName) (formatted_result : FormatResult) (e : EmitterError)
    (b : Bool) (s' : σ) (tr : List CallEvent) (ds : List Bool) (called : Bool) :
    (emitter.emit_header emitter.init = Except.error e →
      emit_format_report fs emitter format_report =
        (StepOutcome.error e, [CallEvent.create, CallEvent.header], []))
    ∧ (emitter.emit_header emitter.init = Except.ok () →
      run_files fs emitter front emitter.init false =
        (StepOutcome.ok (b, s'), tr, ds) →
      write_file fs none filename formatted_result emitter s' =
        (StepOutcome.error e, called) →
      emit_format_report fs emitter (front ++ (filename, formatted_result) :: rest) =
        (StepOutcome.error e,
          CallEvent.create :: CallEvent.header ::
            (tr ++ if called then [CallEvent.file filename] else []), ds))
    ∧ (emitter.emit_header emitter.init = Except.ok () →
      run_files fs emitter format_report emitter.init false =
        (StepOutcome.ok (b, s'), tr, ds) →
      emitter.emit_footer s' = Except.error e →
      emit_format_report fs emitter format_report =
        (StepOutcome.error e,
          CallEvent.create :: CallEvent.header :: (tr ++ [CallEvent.footer]), ds)) := by
  refine ⟨?_, ?_, ?_⟩
  · intro hh
    simp only [emit_format_report]
    rw [hh]
  · intro hh hrun hw
    have hstep : run_files fs emitter ((filename, formatted_result) :: rest) s' b =
        (StepOutcome.error e,
          (if called then [CallEvent.file filename] else []), []) := by
      simp only [run_files]
      rw [hw]
    have happ := run_files_append fs emitter front ((filename, formatted_result) :: rest)
      emitter.init false b s' tr ds hrun
    simp only [emit_format_report]
    rw [hh]
    dsimp only
    rw [happ, hstep]
    dsimp only
    simp
  · intro hh hrun hf
    simp only [emit_format_report]
    rw [hh]
    dsimp only
    rw [hrun]
    dsimp only
    rw [hf]

/-- A strategy failing with `JsonError` exactly on the file `b.rs`, reporting
no diff otherwise; exhibits abort-on-first-error. -/
def failOnB : EmitterBehavior Unit where
  init := ()
  emit_formatted_file := fun _ v =>
    if v.filename = FileName.Real "b.rs" then Except.error EmitterError.JsonError
    else Except.ok (⟨false⟩, ())
  emit_header := fun _ => Except.ok ()
  emit_footer := fun _ => Except.ok ()

/-- Witness for C4: on the report [a.rs, b.rs, c.rs] with a strategy failing on
b.rs, the run returns that error; a.rs was emitted and kept, b.rs's emission
was attempted, c.rs was never emitted and the footer never called. -/
theorem c4_first_error_aborts_witness :
    emit_format_report (fun _ => none) failOnB
      [(FileName.Real "a.rs", ⟨NewlineStyle.Auto, some "x", "x"⟩),
        (FileName.Real "b.rs", ⟨NewlineStyle.Auto, some "x", "x"⟩),
        (FileName.Real "c.rs", ⟨NewlineStyle.Auto, some "x", "x"⟩)] =
      (StepOutcome.error EmitterError.JsonError,
        [CallEvent.create, CallEvent.header, CallEvent.file (FileName.Real "a.rs"),
          CallEvent.file (FileName.Real "b.rs")], [false]) :=
  (c4_first_error_aborts (fun _ => none) failOnB []
    [(FileName.Real "a.rs", ⟨NewlineStyle.Auto, some "x", "x"⟩)]
    [(FileName.Real "c.rs", ⟨NewlineStyle.Auto, some "x", "x"⟩)]
    (FileName.Real "b.rs") ⟨NewlineStyle.Auto, some "x", "x"⟩
    EmitterError.JsonError false () [CallEvent.file (FileName.Real "a.rs")]
    [false] true).2.1 rfl (by decide) (by decide)

/-- C5: whenever `emit_format_report` succeeds, the returned run-level boolean
is the logical OR of the per-file `has_diff` values returned by the strategy
(one per file, accumulated monotonically from `false` with `|=`): it is true
iff at least one per-file result had `has_diff = true`. -/
theorem c5_run_flag_is_or {σ : Type} (fs : String → Option String)
    (emitter : EmitterBehavior σ) (format_report : List (FileName × FormatResult))
    (b : Bool) (s' : σ) (tr : List CallEvent) (ds : List Bool)
    (h : emit_format_report fs emitter format_report =
      (StepOutcome.ok (b, s'), tr, ds)) :
    b = ds.any id ∧ ds.length = format_report.length ∧ (b = true ↔ true ∈ ds) := by
  obtain ⟨-, tr2, hrun, -, -⟩ :=
    emit_format_report_ok_inv fs emitter format_report b s' tr ds h
  obtain ⟨hb, hlen, -⟩ :=
    run_files_ok_spec fs emitter format_report emitter.init false b s' tr2 ds hrun
  refine ⟨by simpa using hb, hlen, ?_⟩
  rw [hb]
  simp [List.any_eq_true]

/-- Witness for C5: a two-file stdin report where only the second file differs
yields `true`, with per-file results `[false, true]`. -/
theorem c5_run_flag_is_or_witness :
    (true : Bool) = [false, true].any id
    ∧ ([false, true] : List Bool).length =
      [(FileName.Stdin, (⟨NewlineStyle.Auto, some "x", "x"⟩ : FormatResult)),
        (FileName.Stdin, ⟨NewlineStyle.Auto, some "y", "z"⟩)].length
    ∧ ((true = true) ↔ true ∈ [false, true]) :=
  c5_run_flag_is_or (fun _ => none) recordingEmitter
    [(FileName.Stdin, ⟨NewlineStyle.Auto, some "x", "x"⟩),
      (FileName.Stdin, ⟨NewlineStyle.Auto, some "y", "z"⟩)]
    true [⟨FileName.Stdin, "x", "x"⟩, ⟨FileName.Stdin, "y", "z"⟩]
    [CallEvent.create, CallEvent.header, CallEvent.file FileName.Stdin,
      CallEvent.file FileName.Stdin, CallEvent.footer]
    [false, true] (by decide)

/-- C6: on a report with zero files, `emit_format_report` returns `false`, and
the strategy's header and footer are each invoked exactly once (header before
footer), with no `emit_formatted_file` call. -/
theorem c6_empty_report {σ : Type} (fs : String → Option String)
    (emitter : EmitterBehavior σ)
    (hh : emitter.emit_header emitter.init = Except.ok ())
    (hf : emitter.emit_footer emitter.init = Except.ok ()) :
    emit_format_report fs emitter [] =
      (StepOutcome.ok (false, emitter.init),
        [CallEvent.create, CallEvent.header, CallEvent.footer], [])
    ∧ [CallEvent.create, CallEvent.header, CallEvent.footer].count CallEvent.header = 1
    ∧ [CallEvent.create, CallEvent.header, CallEvent.footer].count CallEvent.footer = 1
    ∧ ∀ filename,
      CallEvent.file filename ∉ [CallEvent.create, CallEvent.header, CallEvent.footer] := by
  refine ⟨?_, by decide, by decide, by intro filename; simp⟩
  simp only [emit_format_report]
  rw [hh]
  dsimp only [run_files]
  rw [hf]
  rfl

/-- Witness for C6: the recording strategy on the empty report. -/
theorem c6_empty_report_witness :
    emit_format_report (fun _ => none) recordingEmitter [] =
      (StepOutcome.ok (false, recordingEmitter.init),
        [CallEvent.create, CallEvent.header, CallEvent.footer], [])
    ∧ [CallEvent.create, CallEvent.header, CallEvent.footer].count CallEvent.header = 1
    ∧ [CallEvent.create, CallEvent.header, CallEvent.footer].count CallEvent.footer = 1
    ∧ ∀ filename,
      CallEvent.file filename ∉ [CallEvent.create, CallEvent.header, CallEvent.footer] :=
  c6_empty_report (fun _ => none) recordingEmitter rfl rfl

/-- C7: `EmitMode::from_str` accepts exactly the case-sensitive tokens
"files", "stdout", "checkstyle", "json", mapping them to `Files`, `Stdout`,
`Checkstyle`, `Json`; every other string — including "bogus", differently
cased spellings, and the internal-only "modified-lines"/"diff" — fails with
the unrecognized-mode error carrying the offending token. -/
theorem c7_emit_mode_from_str :
    EmitMode.from_str "files" = Except.ok EmitMode.Files
    ∧ EmitMode.from_str "stdout" = Except.ok EmitMode.Stdout
    ∧ EmitMode.from_str "checkstyle" = Except.ok EmitMode.Checkstyle
    ∧ EmitMode.from_str "json" = Except.ok EmitMode.Json
    ∧ (∀ s : String, s ≠ "files" → s ≠ "stdout" → s ≠ "checkstyle" → s ≠ "json" →
      EmitMode.from_str s = Except.error ("unknown emit mode `" ++ s ++ "`"))
    ∧ EmitMode.from_str "bogus" = Except.error "unknown emit mode `bogus`"
    ∧ EmitMode.from_str "Files" = Except.error "unknown emit mode `Files`"
    ∧ EmitMode.from_str "modified-lines" =
      Except.error "unknown emit mode `modified-lines`"
    ∧ EmitMode.from_str "diff" = Except.error "unknown emit mode `diff`" := by
  refine ⟨rfl, rfl, rfl, rfl, ?_, rfl, rfl, rfl, rfl⟩
  intro s h1 h2 h3 h4
  simp only [EmitMode.from_str, if_neg h1, if_neg h2, if_neg h3, if_neg h4]

/-- Witness for C7: the rejection clause applied to the concrete token
"bogus". -/
theorem c7_emit_mode_from_str_witness :
    EmitMode.from_str "bogus" = Except.error ("unknown emit mode `" ++ "bogus" ++ "`") :=
  c7_emit_mode_from_str.2.2.2.2.1 "bogus" (by decide) (by decide) (by decide) (by decide)

/-- Counterexample for C8: two distinct configs (same Json mode, different
color, verbosity and print_filename) produce identical strategy values —
`JsonEmitter::default()` receives no config, so the returned strategy is not
seeded with the `EmissionConfig` passed in, contrary to the claim that every
returned strategy is. -/
theorem c8_create_emitter_counterexample :
    create_emitter ⟨EmitMode.Json, Color.Always, Verbosity.Verbose, true⟩ =
      create_emitter ⟨EmitMode.Json, Color.Never, Verbosity.Quiet, false⟩
    ∧ (⟨EmitMode.Json, Color.Always, Verbosity.Verbose, true⟩ : EmitterConfig) ≠
      ⟨EmitMode.Json, Color.Never, Verbosity.Quiet, false⟩ :=
  ⟨rfl, by decide⟩

/-- C8 (amended): `create_emitter` is a pure total function that never fails;
the six `EmitMode` variants map one-to-one onto the six distinct concrete
strategy types; the `Files`, `Stdout` and `Diff` strategies are seeded with
the passed `EmitterConfig`, while the `Json`, `ModifiedLines` and `Checkstyle`
strategies are constructed via their `default()` and receive no config. -/
theorem c8_create_emitter_mapping (emitter_config emitter_config2 : EmitterConfig) :
    (create_emitter emitter_config).mode = emitter_config.emit_mode
    ∧ ((create_emitter emitter_config).mode = (create_emitter emitter_config2).mode ↔
      emitter_config.emit_mode = emitter_config2.emit_mode)
    ∧ (emitter_config.emit_mode = EmitMode.Files →
      create_emitter emitter_config = ConstructedEmitter.filesEmitter emitter_config)
    ∧ (emitter_config.emit_mode = EmitMode.Stdout →
      create_emitter emitter_config = ConstructedEmitter.stdoutEmitter emitter_config)
    ∧ (emitter_config.emit_mode = EmitMode.Diff →
      create_emitter emitter_config = ConstructedEmitter.diffEmitter emitter_config)
    ∧ (emitter_config.emit_mode = EmitMode.Json →
      create_emitter emitter_config = ConstructedEmitter.jsonEmitter)
    ∧ (emitter_config.emit_mode = EmitMode.ModifiedLines →
      create_emitter emitter_config = ConstructedEmitter.modifiedLinesEmitter)
    ∧ (emitter_config.emit_mode = EmitMode.Checkstyle →
      create_emitter emitter_config = ConstructedEmitter.checkstyleEmitter) := by
  have hmode : ∀ c : EmitterConfig, (create_emitter c).mode = c.emit_mode := by
    intro c
    rcases c with ⟨m, col, v, p⟩
    cases m <;> rfl
  refine ⟨hmode emitter_config, ?_, ?_, ?_, ?_, ?_, ?_, ?_⟩
  · rw [hmode emitter_config, hmode emitter_config2]
  all_goals
    intro hm
    simp only [create_emitter, hm]

/-- Witness for C8 (amended): concrete configs for a seeded mode and a
default-constructed mode. -/
theorem c8_create_emitter_mapping_witness :
    (create_emitter ⟨EmitMode.Files, Color.Never, Verbosity.Quiet, true⟩).mode =
      EmitMode.Files
    ∧ create_emitter ⟨EmitMode.Files, Color.Never, Verbosity.Quiet, true⟩ =
      ConstructedEmitter.filesEmitter ⟨EmitMode.Files, Color.Never, Verbosity.Quiet, true⟩
    ∧ create_emitter ⟨EmitMode.Checkstyle, Color.Auto, Verbosity.Normal, false⟩ =
      ConstructedEmitter.checkstyleEmitter :=
  ⟨(c8_create_emitter_mapping ⟨EmitMode.Files, Color.Never, Verbosity.Quiet, true⟩
      ⟨EmitMode.Files, Color.Never, Verbosity.Quiet, true⟩).1,
    (c8_create_emitter_mapping ⟨EmitMode.Files, Color.Never, Verbosity.Quiet, true⟩
      ⟨EmitMode.Files, Color.Never, Verbosity.Quiet, true⟩).2.2.1 rfl,
    (c8_create_emitter_mapping ⟨EmitMode.Checkstyle, Color.Auto, Verbosity.Normal, false⟩
      ⟨EmitMode.Checkstyle, Color.Auto, Verbosity.Normal, false⟩).2.2.2.2.2.2.2 rfl⟩

theorem count_file_map_zero (c : CallEvent) (hc : ∀ fn, c ≠ CallEvent.file fn)
    (l : List (FileName × FormatResult)) :
    (l.map (fun p => CallEvent.file p.1)).count c = 0 := by
  rw [List.count_eq_zero]
  intro hm
  obtain ⟨p, -, hp⟩ := List.mem_map.mp hm
  exact hc p.1 hp.symm

/-- C9: on a successful run the trace of strategy calls is exactly one
construction, then one header call, then one `emit_formatted_file` call per
report entry in the report's insertion order, then one footer call — the
single strategy instance (created before any file) is threaded through every
call. -/
theorem c9_report_order_preserved {σ : Type} (fs : String → Option String)
    (emitter : EmitterBehavior σ) (format_report : List (FileName × FormatResult))
    (b : Bool) (s' : σ) (tr : List CallEvent) (ds : List Bool)
    (h : emit_format_report fs emitter format_report =
      (StepOutcome.ok (b, s'), tr, ds)) :
    tr = CallEvent.create :: CallEvent.header ::
      (format_report.map (fun p => CallEvent.file p.1) ++ [CallEvent.footer])
    ∧ tr.count CallEvent.create = 1
    ∧ tr.count CallEvent.header = 1
    ∧ tr.count CallEvent.footer = 1 := by
  obtain ⟨-, tr2, hrun, -, htr⟩ :=
    emit_format_report_ok_inv fs emitter format_report b s' tr ds h
  obtain ⟨-, -, htr2⟩ :=
    run_files_ok_spec fs emitter format_report emitter.init false b s' tr2 ds hrun
  subst htr2
  subst htr
  refine ⟨rfl, ?_, ?_, ?_⟩ <;>
    simp [List.count_cons, List.count_append,
      count_file_map_zero CallEvent.create (by intro fn hcc; cases hcc),
      count_file_map_zero CallEvent.header (by intro fn hcc; cases hcc),
      count_file_map_zero CallEvent.footer (by intro fn hcc; cases hcc)]

/-- Witness for C9: recording strategy over three stdin files; the trace is
construction, header, the three files in insertion order, footer. -/
theorem c9_report_order_preserved_witness :
    ([CallEvent.create, CallEvent.header, CallEvent.file (FileName.Real "a.rs"),
      CallEvent.file (FileName.Real "b.rs"), CallEvent.file (FileName.Real "c.rs"),
      CallEvent.footer] : List CallEvent) =
      CallEvent.create :: CallEvent.header ::
        (([(FileName.Real "a.rs", (⟨NewlineStyle.Auto, some "x", "x"⟩ : FormatResult)),
          (FileName.Real "b.rs", ⟨NewlineStyle.Auto, some "y", "y"⟩),
          (FileName.Real "c.rs", ⟨NewlineStyle.Auto, some "z", "w"⟩)].map
            (fun p => CallEvent.file p.1)) ++ [CallEvent.footer]) :=
  (c9_report_order_preserved (fun _ => none) recordingEmitter
    [(FileName.Real "a.rs", ⟨NewlineStyle.Auto, some "x", "x"⟩),
      (FileName.Real "b.rs", ⟨NewlineStyle.Auto, some "y", "y"⟩),
      (FileName.Real "c.rs", ⟨NewlineStyle.Auto, some "z", "w"⟩)]
    true
    [⟨FileName.Real "a.rs", "x", "x"⟩, ⟨FileName.Real "b.rs", "y", "y"⟩,
      ⟨FileName.Real "c.rs", "z", "w"⟩]
    [CallEvent.create, CallEvent.header, CallEvent.file (FileName.Real "a.rs"),
      CallEvent.file (FileName.Real "b.rs"), CallEvent.file (FileName.Real "c.rs"),
      CallEvent.footer]
    [false, false, true] (by decide)).1

/-- C10: `emit_format_report` passes no parse session to `write_file` (the
literal `None` at its call site), so the source-map lookup step of the
resolution chain is never consulted through the public entry point: a
real-path file with newline style Auto and no cached snippet is resolved by
reading the disk (the disk bytes are what the strategy receives), and a Stdin
file in that situation makes the run panic rather than return an error. -/
theorem c10_no_parse_session (fs : String → Option String)
    (formatted_result : FormatResult)
    (hauto : formatted_result.newline_style = NewlineStyle.Auto)
    (hnone : formatted_result.original_text = none) :
    (∀ path, resolve_original_text fs none (FileName.Real path) formatted_result =
      read_original_from_disk fs (FileName.Real path))
    ∧ resolve_original_text fs none FileName.Stdin formatted_result =
      StepOutcome.panicked
    ∧ (∀ path text, fs path = some text →
      emit_format_report fs recordingEmitter
          [(FileName.Real path, formatted_result)] =
        (StepOutcome.ok ((text != formatted_result.formatted_text),
          [⟨FileName.Real path, text, formatted_result.formatted_text⟩]),
          [CallEvent.create, CallEvent.header, CallEvent.file (FileName.Real path),
            CallEvent.footer],
          [(text != formatted_result.formatted_text)]))
    ∧ emit_format_report fs recordingEmitter [(FileName.Stdin, formatted_result)] =
      (StepOutcome.panicked, [CallEvent.create, CallEvent.header], []) := by
  have hres0 : ∀ filename,
      resolve_original_text fs none filename formatted_result =
        read_original_from_disk fs filename := by
    intro filename
    simp only [resolve_original_text]
    rw [if_neg (fun hc => hc.1 hauto), hnone]
    rfl
  have hh : recordingEmitter.emit_header recordingEmitter.init = Except.ok () := rfl
  have hf : ∀ s, recordingEmitter.emit_footer s = Except.ok () := fun _ => rfl
  refine ⟨fun path => hres0 (FileName.Real path), (hres0 FileName.Stdin).trans rfl,
    ?_, ?_⟩
  · intro path text hdisk
    have hres : resolve_original_text fs none (FileName.Real path) formatted_result =
        StepOutcome.ok text := by
      rw [hres0]
      simp only [read_original_from_disk, ensure_real_path, hdisk]
    have hwf : write_file fs none (FileName.Real path) formatted_result
        recordingEmitter recordingEmitter.init =
        (StepOutcome.ok (⟨text != formatted_result.formatted_text⟩,
          [⟨FileName.Real path, text, formatted_result.formatted_text⟩]), true) := by
      simp only [write_file, hres]
      rfl
    have hrunone : run_files fs recordingEmitter
        [(FileName.Real path, formatted_result)] recordingEmitter.init false =
        (StepOutcome.ok ((false || (text != formatted_result.formatted_text)),
          [⟨FileName.Real path, text, formatted_result.formatted_text⟩]),
          [CallEvent.file (FileName.Real path)],
          [(text != formatted_result.formatted_text)]) := by
      simp only [run_files, hwf]
    simp only [emit_format_report]
    rw [hh]
    dsimp only
    rw [hrunone]
    dsimp only
    rw [hf]
    simp
  · have hres2 : resolve_original_text fs none FileName.Stdin formatted_result =
        StepOutcome.panicked := (hres0 FileName.Stdin).trans rfl
    have hwf2 : write_file fs none FileName.Stdin formatted_result
        recordingEmitter recordingEmitter.init = (StepOutcome.panicked, false) := by
      simp only [write_file, hres2]
    have hrun2 : run_files fs recordingEmitter [(FileName.Stdin, formatted_result)]
        recordingEmitter.init false = (StepOutcome.panicked, [], []) := by
      simp only [run_files, hwf2]
      rfl
    simp only [emit_format_report]
    rw [hh]
    dsimp only
    rw [hrun2]

/-- Witness for C10: with `m.rs` holding `"disk"` on disk, an Auto-newline
outcome with no cached snippet resolves from disk through the public entry
point, and the same outcome for Stdin makes the run panic. -/
theorem c10_no_parse_session_witness :
    resolve_original_text (fun p => if p = "m.rs" then some "disk" else none) none
      (FileName.Real "m.rs") ⟨NewlineStyle.Auto, none, "fmt"⟩ =
      read_original_from_disk (fun p => if p = "m.rs" then some "disk" else none)
        (FileName.Real "m.rs")
    ∧ emit_format_report (fun p => if p = "m.rs" then some "disk" else none)
        recordingEmitter
        [(FileName.Real "m.rs", ⟨NewlineStyle.Auto, none, "fmt"⟩)] =
      (StepOutcome.ok (true, [⟨FileName.Real "m.rs", "disk", "fmt"⟩]),
        [CallEvent.create, CallEvent.header, CallEvent.file (FileName.Real "m.rs"),
          CallEvent.footer], [true])
    ∧ emit_format_report (fun p => if p = "m.rs" then some "disk" else none)
        recordingEmitter [(FileName.Stdin, ⟨NewlineStyle.Auto, none, "fmt"⟩)] =
      (StepOutcome.panicked, [CallEvent.create, CallEvent.header], []) :=
  ⟨(c10_no_parse_session (fun p => if p = "m.rs" then some "disk" else none)
      ⟨NewlineStyle.Auto, none, "fmt"⟩ rfl rfl).1 "m.rs",
    (c10_no_parse_session (fun p => if p = "m.rs" then some "disk" else none)
      ⟨NewlineStyle.Auto, none, "fmt"⟩ rfl rfl).2.2.1 "m.rs" "disk" (by decide),
    (c10_no_parse_session (fun p => if p = "m.rs" then some "disk" else none)
      ⟨NewlineStyle.Auto, none, "fmt"⟩ rfl rfl).2.2.2⟩

end RustfmtEmitter
